import Mathlib

/-!
Shallow embedding of the EntropyOS tick-advancement engine
(`backend/app` of joshmeek/EntropyOS) in Lean 4.

Conventions of the embedding:
* Python floats are modelled by `ℚ` (all numeric literals appearing in the
  claims are exactly representable; the claims speak of results "within
  epsilon", which the exact model satisfies a fortiori).
* SQLAlchemy rows become plain Lean structures; a database session becomes
  explicit state (`SimState`, a list of long-term-memory rows, ...).
  Lists of rows are kept in `created_at` order, matching the
  `order_by(created_at)` of the queries that read them.
* Python dictionaries that may lack keys (or hold the wrong type) become
  `Option`-valued fields: `none` models "key absent / not of the expected
  type", exactly mirroring the `isinstance`/`.get` guards in the source.
* `json.loads` is modelled by a small executable JSON parser, and pydantic
  `model_validate` for the `LLMDecision` schema by an explicit validator.
* Functions that raise become `Except String`-valued; callers that
  `try/except` match on the `.error` case.
-/

namespace EntropyOS

/-- The character `{` (written via an escape so that brace-shaped text never
occurs literally inside string or character literals in this file). -/
def braceOpen : Char := '\x7b'

/-- The character `}`. -/
def braceClose : Char := '\x7d'

/-! ## JSON values and a model of `json.loads`

`parse_structured_decision` in `llm_service.py` calls `json.loads` on the
extracted text.  We model JSON values and an executable recursive-descent
parser (fuelled by the input length, so no unbounded recursion). -/

/-- A JSON value, as produced by Python's `json.loads`. -/
inductive Json where
  | null
  | bool (b : Bool)
  | num (q : ℚ)
  | str (s : String)
  | arr (elems : List Json)
  | obj (members : List (String × Json))

/-- JSON whitespace (the characters `json.loads` skips between tokens). -/
def isJsonWs (c : Char) : Bool :=
  c = ' ' || c = '\n' || c = '\t' || c = '\r'

/-- Drop leading JSON whitespace. -/
def skipWs (cs : List Char) : List Char := cs.dropWhile isJsonWs

/-- Numeric value of a digit string (most significant first). -/
def natOfDigits (ds : List Char) : Nat :=
  ds.foldl (fun a c => a * 10 + (c.toNat - 48)) 0

/-- Parse the body of a JSON string literal (the opening quote already
consumed); returns the decoded characters and the rest of the input.
Handles the simple escapes; `\uXXXX` is not modelled. -/
def parseStrBody : List Char → Option (List Char × List Char)
  | [] => none
  | '"' :: rest => some ([], rest)
  | '\\' :: e :: rest =>
      let dec : Option Char :=
        if e = '"' then some '"'
        else if e = '\\' then some '\\'
        else if e = '/' then some '/'
        else if e = 'n' then some '\n'
        else if e = 't' then some '\t'
        else if e = 'r' then some '\r'
        else none
      match dec with
      | some d => (parseStrBody rest).map (fun p => (d :: p.1, p.2))
      | none => none
  | '\\' :: [] => none
  | c :: rest => (parseStrBody rest).map (fun p => (c :: p.1, p.2))

/-- Parse a JSON number (`-? digits (. digits)? ([eE] [+-]? digits)?`). -/
def parseNumber (cs : List Char) : Option (ℚ × List Char) :=
  let sgnAndRest : ℚ × List Char :=
    match cs with
    | '-' :: r => (-1, r)
    | _ => (1, cs)
  let sgn := sgnAndRest.1
  let cs1 := sgnAndRest.2
  let ds := cs1.takeWhile Char.isDigit
  if ds.isEmpty then none
  else
    let ip : ℚ := (natOfDigits ds : ℚ)
    let cs2 := cs1.drop ds.length
    let withFrac : Option (ℚ × List Char) :=
      match cs2 with
      | '.' :: r =>
          let fs := r.takeWhile Char.isDigit
          if fs.isEmpty then none
          else some (ip + (natOfDigits fs : ℚ) / ((10 : ℚ) ^ fs.length),
                     r.drop fs.length)
      | _ => some (ip, cs2)
    match withFrac with
    | none => none
    | some (v, cs3) =>
      match cs3 with
      | 'e' :: r | 'E' :: r =>
          let signAndRest : Bool × List Char :=
            match r with
            | '+' :: rr => (false, rr)
            | '-' :: rr => (true, rr)
            | _ => (false, r)
          let es := signAndRest.2.takeWhile Char.isDigit
          if es.isEmpty then none
          else
            let p : ℚ := (10 : ℚ) ^ natOfDigits es
            some (sgn * (if signAndRest.1 then v / p else v * p),
                  signAndRest.2.drop es.length)
      | _ => some (sgn * v, cs3)

mutual

/-- Parse one JSON value (fuelled). -/
def parseValue : Nat → List Char → Option (Json × List Char)
  | 0, _ => none
  | f + 1, cs =>
    match skipWs cs with
    | [] => none
    | c :: rest =>
      if c = '"' then
        match parseStrBody rest with
        | some (s, r) => some (.str (String.mk s), r)
        | none => none
      else if c = braceOpen then
        match skipWs rest with
        | c2 :: r2 =>
          if c2 = braceClose then some (.obj [], r2)
          else
            match parseMembers f (skipWs rest) with
            | some (ms, r) => some (.obj ms, r)
            | none => none
        | [] => none
      else if c = '[' then
        match skipWs rest with
        | c2 :: r2 =>
          if c2 = ']' then some (.arr [], r2)
          else
            match parseItems f (skipWs rest) with
            | some (xs, r) => some (.arr xs, r)
            | none => none
        | [] => none
      else if c = 'n' then
        match rest with
        | 'u' :: 'l' :: 'l' :: r => some (.null, r)
        | _ => none
      else if c = 't' then
        match rest with
        | 'r' :: 'u' :: 'e' :: r => some (.bool true, r)
        | _ => none
      else if c = 'f' then
        match rest with
        | 'a' :: 'l' :: 's' :: 'e' :: r => some (.bool false, r)
        | _ => none
      else
        match parseNumber (c :: rest) with
        | some (q, r) => some (.num q, r)
        | none => none

/-- Parse the members of a JSON object, positioned at the first key;
consumes the closing brace. -/
def parseMembers : Nat → List Char → Option (List (String × Json) × List Char)
  | 0, _ => none
  | f + 1, cs =>
    match skipWs cs with
    | '"' :: rest =>
      match parseStrBody rest with
      | some (k, r1) =>
        match skipWs r1 with
        | ':' :: r2 =>
          match parseValue f r2 with
          | some (v, r3) =>
            match skipWs r3 with
            | ',' :: r4 =>
              match parseMembers f r4 with
              | some (ms, r5) => some ((String.mk k, v) :: ms, r5)
              | none => none
            | c5 :: r5 =>
              if c5 = braceClose then some ([(String.mk k, v)], r5) else none
            | [] => none
          | none => none
        | _ => none
      | none => none
    | _ => none

/-- Parse the items of a JSON array, positioned at the first item;
consumes the closing bracket. -/
def parseItems : Nat → List Char → Option (List Json × List Char)
  | 0, _ => none
  | f + 1, cs =>
    match parseValue f cs with
    | some (v, r) =>
      match skipWs r with
      | ',' :: r2 =>
        match parseItems f r2 with
        | some (xs, rr) => some (v :: xs, rr)
        | none => none
      | ']' :: r2 => some ([v], r2)
      | _ => none
    | none => none

end

/-- Model of Python's `json.loads`: parses one JSON value and rejects
trailing non-whitespace data; `none` models a raised `JSONDecodeError`. -/
def jsonLoads (s : String) : Option Json :=
  let cs := s.toList
  match parseValue (cs.length + 1) cs with
  | some (v, rest) => if (skipWs rest).isEmpty then some v else none
  | none => none

/-! ## The `LLMDecision` schema (`schemas/llm.py`) and its pydantic validation -/

/-- `LLMDecision` from `app/schemas/llm.py`: `action` is required; the other
fields carry the defaults declared by the pydantic `Field`s
(`dialogue = None`, `sentiment_shift = 0.0`, `policy_opinion_shift` empty,
`spending_ratio_shift = None`).  The policy map is kept as an association
list in JSON order. -/
structure LLMDecision where
  action : String
  dialogue : Option String := none
  sentiment_shift : ℚ := 0
  policy_opinion_shift : List (String × ℚ) := []
  spending_ratio_shift : Option ℚ := none
deriving DecidableEq, Repr

/-- Key lookup in a parsed JSON object.  Python's `json.loads` keeps the
last occurrence of a duplicated key, hence `getLast?`. -/
def jlookup (ms : List (String × Json)) (k : String) : Option Json :=
  ((ms.filter (fun m => m.1 = k)).map (fun m => m.2)).getLast?

/-- pydantic `str` field: accepts exactly a JSON string. -/
def asStr : Json → Option String
  | .str s => some s
  | _ => none

/-- pydantic `Optional[str]` field: accepts a JSON string or `null`. -/
def asOptStr : Json → Option (Option String)
  | .null => some none
  | .str s => some (some s)
  | _ => none

/-- pydantic `float` field: accepts a JSON number (the schema declares no
range bounds, so none are checked). -/
def asFloat : Json → Option ℚ
  | .num q => some q
  | _ => none

/-- pydantic `Optional[float]` field: a JSON number or `null`. -/
def asOptFloat : Json → Option (Option ℚ)
  | .null => some none
  | .num q => some (some q)
  | _ => none

/-- pydantic `Dict[str, float]` field: an object all of whose values are
numbers. -/
def asPolicyShift : Json → Option (List (String × ℚ))
  | .obj ms =>
      ms.foldr
        (fun kv acc =>
          match acc, asFloat kv.2 with
          | some l, some q => some ((kv.1, q) :: l)
          | _, _ => none)
        (some [])
  | _ => none

/-- A field with a default: absent means the default; present but of the
wrong shape is a validation error. -/
def optField (ms : List (String × Json)) (k : String) (dflt : α)
    (f : Json → Option α) : Except String α :=
  match jlookup ms k with
  | none => .ok dflt
  | some j =>
    match f j with
    | some a => .ok a
    | none => .error ("validation error for field " ++ k)

/-- Model of `LLMDecision.model_validate` (pydantic V2): the input must be
an object, `action` must be present and a string, and each present optional
field must have the declared shape. -/
def modelValidateLLMDecision (j : Json) : Except String LLMDecision :=
  match j with
  | .obj ms =>
    match jlookup ms "action" with
    | none => .error "validation error: field action is required"
    | some aj =>
      match asStr aj with
      | none => .error "validation error: action must be a string"
      | some action => do
        let dialogue ← optField ms "dialogue" none asOptStr
        let sshift ← optField ms "sentiment_shift" 0 asFloat
        let pshift ← optField ms "policy_opinion_shift" [] asPolicyShift
        let srshift ← optField ms "spending_ratio_shift" none asOptFloat
        return { action := action, dialogue := dialogue,
                 sentiment_shift := sshift, policy_opinion_shift := pshift,
                 spending_ratio_shift := srshift }
  | _ => .error "validation error: LLMDecision expects an object"

/-! ## `parse_structured_decision` and `get_llm_decision_sync`
(`services/llm_service.py`) -/

/-- Python `str.strip()` (over the characters of the string). -/
def stripChars (s : List Char) : List Char :=
  ((s.dropWhile isJsonWs).reverse.dropWhile isJsonWs).reverse

/-- Python `str.removeprefix`: drop `p` only when `s` starts with it. -/
def dropPre (p s : List Char) : List Char :=
  if p.isPrefixOf s then s.drop p.length else s

/-- Python `str.removesuffix`: drop `p` only when `s` ends with it. -/
def dropSuf (p s : List Char) : List Char :=
  if p.isSuffixOf s then s.take (s.length - p.length) else s

/-- Model of `re.search` for the pattern used at `llm_service.py:121`
(an opening brace, a lazy any-character run, a closing brace): the match
runs from the first opening brace to the first closing brace after it —
NOT a balanced-brace parse.  `none` models "no match". -/
def extractBraceRegion (cs : List Char) : Option (List Char) :=
  match cs.dropWhile (fun c => c ≠ braceOpen) with
  | [] => none
  | _ :: rest =>
    let body := rest.takeWhile (fun c => c ≠ braceClose)
    if body.length = rest.length then none
    else some (braceOpen :: body ++ [braceClose])

/-- `parse_structured_decision` (`llm_service.py:114-152`): strip, remove a
markdown fence, extract the first brace region, `json.loads` it, validate
against the schema.  Every failure raises `ValueError`, modelled as
`.error`. -/
def parse_structured_decision (raw_response : String) : Except String LLMDecision :=
  let cs := stripChars raw_response.toList
  let cs := dropPre "```json".toList cs
  let cs := dropSuf "```".toList cs
  let cs := stripChars cs
  match extractBraceRegion cs with
  | none => .error "No JSON object found in response."
  | some jsonChars =>
    match jsonLoads (String.mk jsonChars) with
    | none => .error "Invalid JSON format"
    | some data =>
      match modelValidateLLMDecision data with
      | .ok d => .ok d
      | .error e => .error ("Schema validation failed: " ++ e)

/-- The ways one oracle invocation can go, per `get_llm_decision_sync`
(`llm_service.py:75-112`): the client may be missing, the API call may
raise, the response may be blocked/empty or missing content parts, or some
raw text comes back. -/
inductive OracleOutcome where
  | clientMissing
  | apiError
  | blocked
  | noParts
  | text (raw : String)

/-- `get_llm_decision_sync`: every failure branch returns the two-character
empty-object string (so the caller's parse still runs); success returns the
raw text.  It never raises. -/
def get_llm_decision_sync : OracleOutcome → String
  | .text raw => raw
  | _ => String.mk [braceOpen, braceClose]

/-- The deterministic fallback decision built at
`simulation_service.py:56` when LLM processing fails. -/
def fallbackDecision : LLMDecision :=
  { action := "observe_failed_llm", dialogue := some "LLM processing error." }

/-- The oracle path failed for this outcome: the raw response does not
parse/validate into a decision. -/
def oracleFails (o : OracleOutcome) : Prop :=
  (parse_structured_decision (get_llm_decision_sync o)).isOk = false

instance (o : OracleOutcome) : Decidable (oracleFails o) := by
  unfold oracleFails; infer_instance

/-! ## The agent data model (`models/agent.py`, JSON-typed columns)

The JSON columns `demographics`, `beliefs` and `short_term_memory` are open
dictionaries; the pipeline reads/writes only the keys modelled below,
guarding each access with `isinstance`/`.get`.  A field is `Option`-valued
when the corresponding key may be absent or hold the wrong type (`none`
models both, matching how the guards treat them). -/

/-- One entry of the short-term decision log: the dict
`(tick, decision.dict())` appended at `simulation_service.py:68-71`. -/
structure STMEntry where
  tick : Nat
  decision : LLMDecision
deriving DecidableEq, Repr

/-- The `short_term_memory` JSON blob: a `recent_events` log and the
`last_decisions` list (`none` models "key absent or not a list"). -/
structure ShortTermMemory where
  recent_events : List String := []
  last_decisions : Option (List STMEntry) := some []
deriving DecidableEq, Repr

/-- The `beliefs` JSON blob: only the keys the embedded code touches
(`sentiment` at `simulation_service.py:84`, `political_ideology_vector` at
`metrics_service.py:47`); `none` models an absent or wrongly-typed key. -/
structure Beliefs where
  sentiment : Option ℚ := none
  political_ideology_vector : Option (List ℚ) := none
deriving DecidableEq, Repr

/-- The `demographics` JSON blob: only `income` is read or written by the
embedded code (`event_service.py:38-41`, `metrics_service.py:77`). -/
structure Demographics where
  income : Option ℚ := none
deriving DecidableEq, Repr

/-- An agent row.  An outer `none` on `demographics` / `beliefs` /
`short_term_memory` models "the column does not hold a dict". -/
structure Agent where
  id : Nat
  demographics : Option Demographics := some {}
  behavioral_traits : List (String × ℚ) := []
  beliefs : Option Beliefs := some {}
  short_term_memory : Option ShortTermMemory := some {}
deriving DecidableEq, Repr

/-! ## The per-agent update (`services/simulation_service.py:59-88`) -/

/-- Steps 3-4 of `run_agent_updates` for one agent: normalise the STM blob
(resetting it when it is not a dict, and `last_decisions` when it is not a
list), append the `(tick, decision)` entry — with NO length cap — then add
`sentiment_shift` to `beliefs["sentiment"]` (default `0.5`), with no
clamping. -/
def applyDecision (tick : Nat) (decision : LLMDecision) (agent : Agent) : Agent :=
  let stm : ShortTermMemory :=
    match agent.short_term_memory with
    | some s => s
    | none => { recent_events := [], last_decisions := some [] }
  let lds : List STMEntry := stm.last_decisions.getD []
  let stm' : ShortTermMemory :=
    { stm with last_decisions := some (lds ++ [⟨tick, decision⟩]) }
  let b : Beliefs := agent.beliefs.getD {}
  let b' : Beliefs :=
    { b with sentiment := some (b.sentiment.getD (1/2) + decision.sentiment_shift) }
  { agent with short_term_memory := some stm', beliefs := some b' }

/-- One iteration of the agent loop of `run_agent_updates`
(`simulation_service.py:30-113`): call the oracle, parse; on any
LLM/parsing failure fall back to `fallbackDecision`; then apply. -/
def update_agent (tick : Nat) (o : OracleOutcome) (agent : Agent) : Agent :=
  let decision :=
    match parse_structured_decision (get_llm_decision_sync o) with
    | .ok d => d
    | .error _ => fallbackDecision
  applyDecision tick decision agent

/-- `crud/agent.py:get_agents` restricted to the rows of one simulation:
`offset(skip).limit(limit)` over the simulation's agent rows (no
`order_by`, so the list order models the row order). -/
def get_agents (agents : List Agent) (skip limit : Nat) : List Agent :=
  (agents.drop skip).take limit

/-- `run_agent_updates` (`simulation_service.py:15-116`): fetch the
simulation's agents with `limit=10000` (`simulation_service.py:23`) and
update each fetched agent sequentially (the per-agent `try/except` cannot
fire in this total model, so the loop is a map).  Agents beyond the first
10000 are never fetched, hence never updated: the resulting agent rows are
the updated fetched prefix followed by the untouched remainder. -/
def run_agent_updates (oracle : Agent → OracleOutcome) (tick : Nat)
    (agents : List Agent) : List Agent :=
  (get_agents agents 0 10000).map (fun a => update_agent tick (oracle a) a) ++
    agents.drop 10000

/-- Length of the decision log as stored (0 when the blob or the list is
malformed). -/
def decisionLogLength (a : Agent) : Nat :=
  match a.short_term_memory with
  | some stm => (stm.last_decisions.getD []).length
  | none => 0

/-- The most recent decision-log entry. -/
def lastDecisionEntry (a : Agent) : Option STMEntry :=
  match a.short_term_memory with
  | some stm => (stm.last_decisions.getD []).getLast?
  | none => none

/-- The stored sentiment belief scalar. -/
def sentimentOf (a : Agent) : Option ℚ :=
  match a.beliefs with
  | some b => b.sentiment
  | none => none

/-- The STM cap applied by the manual decision endpoint
(`api/agent_routes.py:179-182`) — and nowhere else: keep only the latest
`max_stm_decisions = 10` entries. -/
def capDecisionLog (lds : List STMEntry) : List STMEntry :=
  if lds.length > 10 then lds.drop (lds.length - 10) else lds

/-! ## Events (`models/event.py`, `schemas/event.py`, `crud/event.py`,
`services/event_service.py`) -/

/-- The free-form `parameters` dict of an event, restricted to the keys the
UBI validator reads; `amount_per_agent = none` models a missing key. -/
structure EventParams where
  amount_per_agent : Option ℚ := none
  duration_ticks : Option Int := none
deriving DecidableEq, Repr

/-- An event row of one simulation (`target_tick = none` models SQL NULL).
Rows are kept in `created_at` order. -/
structure Event where
  id : Nat
  event_type : String
  parameters : EventParams := {}
  target_tick : Option Nat := none
  status : String := "pending"
deriving DecidableEq, Repr

/-- A metric snapshot row (`models/metrics.py`): nullable scalars for one
tick. -/
structure MetricSnapshot where
  tick : Nat
  gini_coefficient : Option ℚ
  belief_variance : Option ℚ
deriving DecidableEq, Repr

/-- The persisted state of one simulation: its tick counter and status plus
its owned rows (agent, event and metric-snapshot collections), i.e. the
slice of the database `advance_tick` touches. -/
structure SimState where
  current_tick : Nat := 0
  status : String := "initialized"
  name : String := ""
  agents : List Agent := []
  events : List Event := []
  snapshots : List MetricSnapshot := []
deriving DecidableEq, Repr

/-- `crud/event.py:get_events`: filter by status when the argument is
truthy (Python `if status:` — the empty string is falsy), filter by
`target_tick == tick` when a tick is given (a NULL `target_tick` never
matches), order by `created_at` (the list order), then offset/limit. -/
def get_events (events : List Event) (status : Option String)
    (tick : Option Nat) (skip limit : Nat) : List Event :=
  let q : List Event := events
  let q : List Event :=
    match status with
    | some s => if s = "" then q else q.filter (fun e => e.status = s)
    | none => q
  let q : List Event :=
    match tick with
    | some t => q.filter (fun e => e.target_tick = some t)
    | none => q
  (q.drop skip).take limit

/-- `crud/event.py:update_event_status` restricted to the rows of one
simulation: set the status of the row with the given id. -/
def setEventStatus (events : List Event) (eid : Nat) (s : String) : List Event :=
  events.map (fun e => if e.id = eid then { e with status := s } else e)

/-- The pydantic validation `UBIEventParams(**event.parameters)`
(`schemas/event.py:30-32`): `amount_per_agent` is required and must be
`≥ 0`; `duration_ticks`, when present, must be `≥ 1`.  Returns the
validated amount, or `none` for the `ValidationError` path. -/
def validateUBIParams (p : EventParams) : Option ℚ :=
  match p.amount_per_agent with
  | none => none
  | some a =>
    if a < 0 then none
    else
      match p.duration_ticks with
      | none => some a
      | some d => if d < 1 then none else some a

/-- The per-agent income bump of the UBI handler
(`event_service.py:34-48`): when `demographics` is a dict, set
`income := demographics.get('income', 0.0) + amount`; otherwise skip the
agent. -/
def applyUBIToAgent (amount : ℚ) (a : Agent) : Agent :=
  match a.demographics with
  | some d => { a with demographics := some { d with income := some (d.income.getD 0 + amount) } }
  | none => a

/-- `apply_ubi_event` (`event_service.py:14-61`): validate the parameters —
on failure mark the event `failed` and return without touching agents; on
success fetch the simulation's agents with `limit=10000`
(`event_service.py:31`), bump each fetched agent's income (agents beyond
the first 10000 are untouched) and mark the event `processed`.  The final
commit is modelled as succeeding (its failure path rolls the unit of work
back and is outside the claims). -/
def apply_ubi_event (sim : SimState) (ev : Event) : SimState :=
  match validateUBIParams ev.parameters with
  | none => { sim with events := setEventStatus sim.events ev.id "failed" }
  | some amount =>
    { sim with
      agents := (get_agents sim.agents 0 10000).map (applyUBIToAgent amount) ++
        sim.agents.drop 10000,
      events := setEventStatus sim.events ev.id "processed" }

/-- The selection made by `process_events_for_tick`
(`event_service.py:70-72`): pending events whose `target_tick` equals the
current tick, with `limit=100`. -/
def selectedEvents (sim : SimState) : List Event :=
  get_events sim.events (some "pending") (some sim.current_tick) 0 100

/-- `process_events_for_tick` (`event_service.py:64-89`): for each selected
event, mark it `triggered`, then dispatch on `event_type` — `"ubi"` runs
the UBI handler, anything else is marked `failed`. -/
def process_events_for_tick (sim : SimState) : SimState :=
  (selectedEvents sim).foldl
    (fun s ev =>
      let s := { s with events := setEventStatus s.events ev.id "triggered" }
      if ev.event_type = "ubi" then apply_ubi_event s ev
      else { s with events := setEventStatus s.events ev.id "failed" })
    sim

/-! ## Metric calculator (`services/metrics_service.py`) -/

/-- `np.amin` over a non-empty list (0 on the empty list, which the code
never reaches). -/
def amin : List ℚ → ℚ
  | [] => 0
  | x :: s => s.foldl min x

/-- The epsilon added at `metrics_service.py:26` to avoid division by zero
when all incomes are zero. -/
def GINI_EPS : ℚ := 1 / 10000000

/-- The discrete Gini numerator of `metrics_service.py:34`:
`np.sum((2 * index - n - 1) * array)` with `index = 1..n` over the sorted
array. -/
def giniSum (arr : List ℚ) : ℚ :=
  ∑ i in Finset.range arr.length,
    (2 * ((i : ℚ) + 1) - (arr.length : ℚ) - 1) * arr.getD i 0

/-- `calculate_gini` (`metrics_service.py:14-37`): `None` on an empty list;
otherwise shift up when any value is negative, add epsilon, sort ascending
and apply the discrete Gini formula.  (The `except` branch that maps a
computation error to `None` has no analogue in this total model.) -/
def calculate_gini (incomes : List ℚ) : Option ℚ :=
  if incomes = [] then none
  else
    let array := if amin incomes < 0 then incomes.map (fun x => x - amin incomes) else incomes
    let array := array.map (fun x => x + GINI_EPS)
    let array := List.insertionSort (· ≤ ·) array
    some (giniSum array / ((array.length : ℚ) * array.sum))

/-- The vectors collected at `metrics_service.py:44-50`: for each agent
whose `beliefs` is a dict with a list under `political_ideology_vector`,
that list. -/
def collectBeliefVectors (agents : List Agent) : List (List ℚ) :=
  agents.filterMap (fun a => a.beliefs.bind (fun b => b.political_ideology_vector))

/-- `np.var` of a list (population variance). -/
def npVariance (l : List ℚ) : ℚ :=
  (l.map (fun x => (x - l.sum / (l.length : ℚ)) ^ 2)).sum / (l.length : ℚ)

/-- Average over dimensions of the per-dimension variance across the
collected vectors (`np.var(..., axis=0)` then `np.mean`), dimensions read
off the first vector. -/
def avgDimVariance (vecs : List (List ℚ)) : ℚ :=
  let D := (vecs.headD []).length
  (((List.range D).map (fun d => npVariance (vecs.map (fun v => v.getD d 0)))).sum) / (D : ℚ)

/-- `calculate_belief_variance` (`metrics_service.py:39-63`): `None` when
there are no agents; `0.0` when agents exist but none carries a valid
vector; otherwise the average per-dimension variance.  Ragged vector
lengths make `np.array`/`np.var` raise, which the `except` maps to `None`
— modelled by the final `none`. -/
def calculate_belief_variance (agents : List Agent) : Option ℚ :=
  if agents = [] then none
  else
    let vecs := collectBeliefVectors agents
    if vecs = [] then some 0
    else if vecs.all (fun v => v.length = (vecs.headD []).length) then
      some (avgDimVariance vecs)
    else none

/-- `calculate_and_store_metrics` (`metrics_service.py:65-100`): fetch the
simulation's agents with `limit=10000` (`metrics_service.py:68`); skip
entirely when none come back; otherwise collect the incomes of fetched
agents whose demographics dict has an `income` key, compute both metrics
over the fetched agents and append one snapshot row for the current
tick. -/
def calculate_and_store_metrics (sim : SimState) : SimState :=
  if (get_agents sim.agents 0 10000).isEmpty then sim
  else
    { sim with
      snapshots := sim.snapshots ++
        [⟨sim.current_tick,
          calculate_gini ((get_agents sim.agents 0 10000).filterMap
            (fun a => a.demographics.bind (fun d => d.income))),
          calculate_belief_variance (get_agents sim.agents 0 10000)⟩] }

/-! ## Tick orchestrator (`api/simulation_routes.py:109-164`) -/

/-- `advance_tick_endpoint` for an existing simulation: events for the
current tick, pre-update metrics, agent updates, post-update metrics —
each wrapped in a `try/except` that only logs (the stage functions of this
model are total, so those handlers cannot fire) — then increment
`current_tick` by exactly 1 and persist.  `tickPersistFails` models the
one failure the endpoint surfaces (`update_simulation` not persisting the
increment, `simulation_routes.py:158-160`), raised as HTTP 500. -/
def advance_tick (oracle : Agent → OracleOutcome) (tickPersistFails : Bool)
    (sim : SimState) : Except String SimState :=
  let s1 := process_events_for_tick sim
  let s2 := calculate_and_store_metrics s1
  let s3 := { s2 with agents := run_agent_updates oracle s2.current_tick s2.agents }
  let s4 := calculate_and_store_metrics s3
  if tickPersistFails then .error "Failed to update simulation tick"
  else .ok { s4 with current_tick := s4.current_tick + 1 }

/-! ## Long-term memory (`models/memory.py`, `crud/memory.py`) -/

/-- The global embedding dimension constant (`models/memory.py:12`). -/
def EMBEDDING_DIM : Nat := 768

/-- A long-term memory row. -/
structure AgentLongTermMemory where
  agent_id : Nat
  simulation_id : Nat
  memory_text : String
  memory_embedding : List ℚ
  importance_score : Option Int := none
deriving DecidableEq, Repr

/-- `add_long_term_memory` (`crud/memory.py:10-33`): raise `ValueError`
when the embedding dimension differs from `EMBEDDING_DIM` — before any row
is added — otherwise append the row and return it.  The pair carries the
store after the call together with the raised-or-returned result. -/
def add_long_term_memory (store : List AgentLongTermMemory)
    (agent_id simulation_id : Nat) (memory_text : String)
    (memory_embedding : List ℚ) (importance : Option Int) :
    List AgentLongTermMemory × Except String AgentLongTermMemory :=
  if memory_embedding.length ≠ EMBEDDING_DIM then
    (store, .error "Embedding dimension mismatch")
  else
    let m : AgentLongTermMemory :=
      { agent_id := agent_id, simulation_id := simulation_id,
        memory_text := memory_text, memory_embedding := memory_embedding,
        importance_score := importance }
    (store ++ [m], .ok m)

/-! ## Shared helper lemmas -/

/-- Any single pipeline update appends exactly one entry to the decision
log (after normalising a malformed blob to the empty log). -/
theorem decisionLogLength_applyDecision (tick : Nat) (d : LLMDecision) (a : Agent) :
    decisionLogLength (applyDecision tick d a) = decisionLogLength a + 1 := by
  unfold decisionLogLength applyDecision
  cases a.short_term_memory with
  | none => simp
  | some stm =>
    cases stm.last_decisions with
    | none => simp
    | some lds => simp

/-- The entry appended by a pipeline update is the `(tick, decision)` pair,
and it becomes the most recent entry. -/
theorem lastDecisionEntry_applyDecision (tick : Nat) (d : LLMDecision) (a : Agent) :
    lastDecisionEntry (applyDecision tick d a) = some ⟨tick, d⟩ := by
  unfold lastDecisionEntry applyDecision
  cases a.short_term_memory with
  | none => simp
  | some stm =>
    cases stm.last_decisions with
    | none => simp
    | some lds => simp [List.getLast?_concat]

/-- `update_agent` is `applyDecision` with some decision, so it also grows
the log by exactly one. -/
theorem decisionLogLength_update_agent (tick : Nat) (o : OracleOutcome) (a : Agent) :
    decisionLogLength (update_agent tick o a) = decisionLogLength a + 1 := by
  unfold update_agent
  exact decisionLogLength_applyDecision tick _ a

/-- When the oracle path fails, the update applies exactly the fallback
decision. -/
theorem update_agent_of_oracleFails {o : OracleOutcome} (tick : Nat) (a : Agent)
    (h : oracleFails o) :
    update_agent tick o a = applyDecision tick fallbackDecision a := by
  unfold oracleFails at h
  unfold update_agent
  cases hp : parse_structured_decision (get_llm_decision_sync o) with
  | ok d => rw [hp] at h; simp [Except.isOk, Except.toBool] at h
  | error e => rfl

/-- Iterating the pipeline update grows the log linearly: no cap is ever
applied. -/
theorem decisionLogLength_iterate (tick : Nat) (o : OracleOutcome) (k : Nat) (a : Agent) :
    decisionLogLength ((update_agent tick o)^[k] a) = decisionLogLength a + k := by
  induction k generalizing a with
  | zero => simp
  | succ n ih =>
    rw [Function.iterate_succ_apply, ih, decisionLogLength_update_agent]
    omega

/-! ## C1 — short-term decision log and the cap -/

/-- C1 (counterexample): starting from an agent with an empty decision log,
eleven invocations of the pipeline update leave a log of length 11 — the
configured cap of 10 is exceeded, refuting the claim that the pipeline
keeps the log within the cap. -/
theorem c1_counterexample_log_exceeds_cap :
    decisionLogLength ((update_agent 0 OracleOutcome.apiError)^[11] { id := 0 }) = 11 ∧
    ¬(11 ≤ 10) := by
  refine ⟨?_, by omega⟩
  rw [decisionLogLength_iterate]
  rfl

/-- C1 (amended): `run_agent_updates` enforces no cap at all — each
invocation appends exactly one entry, so after `k` invocations the log
length is the initial length plus `k`, unbounded.  The 10-entry cap with
oldest-first eviction exists only in the manual decision endpoint
(`agent_routes.py:179-182`), whose capping step keeps the log within 10 by
dropping the oldest entries (a suffix is kept). -/
theorem c1_amended_no_pipeline_cap (tick : Nat) (o : OracleOutcome) (a : Agent) (k : Nat) :
    decisionLogLength (update_agent tick o a) = decisionLogLength a + 1 ∧
    decisionLogLength ((update_agent tick o)^[k] a) = decisionLogLength a + k ∧
    (∀ lds : List STMEntry, (capDecisionLog lds).length ≤ max lds.length 10 ∧
      (capDecisionLog lds).length ≤ 10 ∧ capDecisionLog lds <:+ lds) := by
  refine ⟨decisionLogLength_update_agent tick o a, decisionLogLength_iterate tick o k a, ?_⟩
  intro lds
  unfold capDecisionLog
  by_cases h : lds.length > 10
  · simp only [if_pos h, List.length_drop]
    exact ⟨by omega, by omega, List.drop_suffix _ _⟩
  · simp only [if_neg h]
    exact ⟨by omega, by omega, List.suffix_refl _⟩

/-! ## C3 — oracle failures absorbed into the fallback decision -/

/-- C3: every non-text oracle outcome (missing client, API error, blocked
or contentless response) yields the empty-object string whose parse fails;
whenever the parse/validation path fails, the decision merged into the
agent is exactly the deterministic fallback (`action =
"observe_failed_llm"`, zero shifts, explanatory dialogue), the update
still completes (the entry is appended, the log grows by one), and no
error escapes `update_agent`. -/
theorem c3_oracle_failure_fallback :
    (∀ o : OracleOutcome,
       (o = .clientMissing ∨ o = .apiError ∨ o = .blocked ∨ o = .noParts) →
       oracleFails o) ∧
    (∀ (tick : Nat) (a : Agent) (o : OracleOutcome), oracleFails o →
       update_agent tick o a = applyDecision tick fallbackDecision a ∧
       lastDecisionEntry (update_agent tick o a) = some ⟨tick, fallbackDecision⟩ ∧
       decisionLogLength (update_agent tick o a) = decisionLogLength a + 1) ∧
    (fallbackDecision.action = "observe_failed_llm" ∧
     fallbackDecision.sentiment_shift = 0 ∧
     fallbackDecision.policy_opinion_shift = [] ∧
     fallbackDecision.spending_ratio_shift = none ∧
     fallbackDecision.dialogue = some "LLM processing error.") := by
  refine ⟨?_, ?_, by decide, by decide, rfl, rfl, rfl⟩
  · rintro o (rfl | rfl | rfl | rfl) <;> decide
  · intro tick a o h
    refine ⟨update_agent_of_oracleFails tick a h, ?_, decisionLogLength_update_agent tick o a⟩
    rw [update_agent_of_oracleFails tick a h]
    exact lastDecisionEntry_applyDecision tick _ a

/-- C3 (witness): the API-error outcome at a concrete agent. -/
theorem c3_witness :
    oracleFails OracleOutcome.apiError ∧
    update_agent 0 OracleOutcome.apiError { id := 0 } =
      applyDecision 0 fallbackDecision { id := 0 } := by
  have h := c3_oracle_failure_fallback
  have hf := h.1 OracleOutcome.apiError (Or.inr (Or.inl rfl))
  exact ⟨hf, (h.2.1 0 { id := 0 } OracleOutcome.apiError hf).1⟩

/-! ## C5 — belief scalars under the sentiment update -/

/-- The sentiment value the update starts from: the stored scalar, or the
`0.5` default when the key (or the whole dict) is absent. -/
def priorSentiment (a : Agent) : ℚ :=
  match a.beliefs with
  | some b => b.sentiment.getD (1/2)
  | none => 1/2

/-- A syntactically valid oracle response whose `sentiment_shift` of `0.8`
lies inside the range the prompt itself declares admissible. -/
def sentimentShiftResponse : String :=
  "\x7b\"action\": \"spend\", \"sentiment_shift\": 0.8\x7d"

/-- C5 (counterexample): an agent whose trait and belief scalars all lie in
`[0,1]` (sentiment `0.5`), updated by the pipeline with an oracle response
carrying `sentiment_shift = 0.8`, ends with sentiment `1.3 ∉ [0,1]` — the
update does not keep belief scalars within `[0,1]`. -/
theorem c5_counterexample_sentiment_leaves_unit_interval :
    sentimentOf (update_agent 3 (OracleOutcome.text sentimentShiftResponse)
      { id := 0, behavioral_traits := [("conformity", 1/2)],
        beliefs := some { sentiment := some (1/2) } }) = some (13/10) ∧
    ¬((13 : ℚ)/10 ≤ 1) := by
  constructor
  · with_unfolding_all rfl
  · norm_num

/-- C5 (amended): the pipeline update never touches the behavioral traits,
and it sets the sentiment belief scalar to the prior value (default `0.5`)
plus the decision's `sentiment_shift` with no clamping — so the result is
exactly `priorSentiment + shift` and is not confined to `[0,1]`. -/
theorem c5_amended_sentiment_update_unclamped (tick : Nat) (o : OracleOutcome)
    (d : LLMDecision) (a : Agent) :
    (update_agent tick o a).behavioral_traits = a.behavioral_traits ∧
    sentimentOf (applyDecision tick d a) = some (priorSentiment a + d.sentiment_shift) := by
  constructor
  · unfold update_agent applyDecision
    rfl
  · unfold sentimentOf applyDecision priorSentiment
    cases a.beliefs with
    | none => simp
    | some b => cases b.sentiment with
      | none => simp
      | some q => simp

/-! ## C4 — the UBI event handler on concrete inputs -/

/-- The three-agent population of the claim, incomes 0, 50, 200. -/
def ubiAgents : List Agent :=
  [{ id := 0, demographics := some { income := some 0 } },
   { id := 1, demographics := some { income := some 50 } },
   { id := 2, demographics := some { income := some 200 } }]

/-- A UBI event with `amount_per_agent = 100`. -/
def ubiEventGood : Event :=
  { id := 7, event_type := "ubi",
    parameters := { amount_per_agent := some 100 }, target_tick := some 0 }

/-- A UBI event with the invalid `amount_per_agent = -5`. -/
def ubiEventBad : Event :=
  { id := 8, event_type := "ubi",
    parameters := { amount_per_agent := some (-5) }, target_tick := some 0 }

/-- C4: applying the `amount_per_agent = 100` UBI event to incomes
`[0, 50, 200]` yields `[100, 150, 300]` and marks the event `processed`;
applying the `amount_per_agent = -5` event fails validation, leaves every
income unchanged and marks the event `failed`. -/
theorem c4_ubi_event_concrete :
    (let sim' := apply_ubi_event { agents := ubiAgents, events := [ubiEventGood] } ubiEventGood
     sim'.agents.map (fun a => a.demographics.bind (fun d => d.income)) =
        [some 100, some 150, some 300] ∧
     sim'.events.map (fun e => e.status) = ["processed"]) ∧
    (let sim' := apply_ubi_event { agents := ubiAgents, events := [ubiEventBad] } ubiEventBad
     sim'.agents = ubiAgents ∧
     sim'.events.map (fun e => e.status) = ["failed"]) := by
  refine ⟨⟨?_, ?_⟩, ⟨?_, ?_⟩⟩ <;> with_unfolding_all rfl

/-! ## C9 — long-term memory dimension validation -/

/-- C9: writing a long-term memory with an embedding of exactly
`EMBEDDING_DIM` components appends the row and returns it; any other
dimension is rejected with an error and the store is unchanged (the raise
happens before any row is added). -/
theorem c9_ltm_dimension_check (store : List AgentLongTermMemory)
    (aid sid : Nat) (txt : String) (emb : List ℚ) (imp : Option Int) :
    (emb.length = EMBEDDING_DIM →
      add_long_term_memory store aid sid txt emb imp =
        (store ++ [⟨aid, sid, txt, emb, imp⟩], .ok ⟨aid, sid, txt, emb, imp⟩)) ∧
    (emb.length ≠ EMBEDDING_DIM →
      add_long_term_memory store aid sid txt emb imp =
        (store, .error "Embedding dimension mismatch")) := by
  constructor
  · intro h; simp [add_long_term_memory, h]
  · intro h; simp [add_long_term_memory, h]

/-- C9 (witness): a 768-component embedding is accepted; a 3-component one
is rejected leaving the store empty. -/
theorem c9_witness :
    add_long_term_memory [] 1 2 "m" (List.replicate EMBEDDING_DIM 0) none =
      ([⟨1, 2, "m", List.replicate EMBEDDING_DIM 0, none⟩],
       .ok ⟨1, 2, "m", List.replicate EMBEDDING_DIM 0, none⟩) ∧
    add_long_term_memory [] 1 2 "m" [1, 2, 3] none =
      ([], .error "Embedding dimension mismatch") := by
  constructor
  · exact (c9_ltm_dimension_check [] 1 2 "m" (List.replicate EMBEDDING_DIM 0) none).1
      (List.length_replicate _ _)
  · exact (c9_ltm_dimension_check [] 1 2 "m" [1, 2, 3] none).2 (by decide)

/-! ## C10 — non-greedy brace extraction truncates nested objects -/

/-- The exact decision object the prompt requests, syntactically valid
JSON, with a non-empty `policy_opinion_shift` mapping (so it contains a
nested brace pair). -/
def nestedDecisionResponse : String :=
  "\x7b\"action\": \"observe\", \"dialogue\": null, \"sentiment_shift\": 0.0, \"policy_opinion_shift\": \x7b\"tax\": 0.1\x7d, \"spending_ratio_shift\": null\x7d"

/-- What the non-greedy pattern extracts from it: the text from the first
opening brace to the first closing brace — cut off inside the nested
mapping, before the outer closing brace. -/
def truncatedNestedResponse : String :=
  "\x7b\"action\": \"observe\", \"dialogue\": null, \"sentiment_shift\": 0.0, \"policy_opinion_shift\": \x7b\"tax\": 0.1\x7d"

set_option maxRecDepth 100000 in
/-- C10: the full response is valid JSON that validates into the decision
the model meant (non-empty policy map), but the extraction stops at the
first closing brace, the truncated text is shorter than the response and
is not valid JSON, and `parse_structured_decision` therefore raises
`ValueError` ("Invalid JSON format") instead of returning the decision. -/
theorem c10_nested_policy_map_truncation :
    ((jsonLoads nestedDecisionResponse).map modelValidateLLMDecision =
      some (.ok { action := "observe", dialogue := none, sentiment_shift := 0,
                  policy_opinion_shift := [("tax", 1/10)],
                  spending_ratio_shift := none })) ∧
    extractBraceRegion nestedDecisionResponse.toList = some truncatedNestedResponse.toList ∧
    truncatedNestedResponse.toList.length < nestedDecisionResponse.toList.length ∧
    jsonLoads truncatedNestedResponse = none ∧
    parse_structured_decision nestedDecisionResponse = .error "Invalid JSON format" := by
  refine ⟨?_, ?_, ?_, ?_, ?_⟩
  · with_unfolding_all rfl
  · with_unfolding_all rfl
  · decide
  · with_unfolding_all rfl
  · with_unfolding_all rfl

/-! ## C8 — belief-variance policy -/

/-- C8: `calculate_belief_variance` is `None` for no agents; exactly `0.0`
for a non-empty agent list in which no agent carries a valid ideology
vector (a policy distinct from the no-agents case); and otherwise the
average over dimensions of the per-dimension variance across the collected
vectors (stated for the equal-length, positive-dimension case in which
`np.var`/`np.mean` are defined). -/
theorem c8_belief_variance_policy :
    (calculate_belief_variance [] = none) ∧
    (∀ agents : List Agent, agents ≠ [] → collectBeliefVectors agents = [] →
       calculate_belief_variance agents = some 0) ∧
    (∀ agents : List Agent, agents ≠ [] →
       collectBeliefVectors agents ≠ [] →
       (∀ v ∈ collectBeliefVectors agents,
          v.length = ((collectBeliefVectors agents).headD []).length) →
       0 < ((collectBeliefVectors agents).headD []).length →
       calculate_belief_variance agents =
         some (avgDimVariance (collectBeliefVectors agents))) := by
  refine ⟨rfl, ?_, ?_⟩
  · intro agents h1 h2
    unfold calculate_belief_variance
    rw [if_neg h1, h2]
    rfl
  · intro agents h1 h2 h3 _
    unfold calculate_belief_variance
    rw [if_neg h1, if_neg h2, if_pos]
    rw [List.all_eq_true]
    intro v hv
    exact decide_eq_true (h3 v hv)

/-- C8 (witness): one vectorless agent gives `0.0`; two agents with the
two-dimensional vectors `[0,1]` and `[1,0]` give the averaged variance. -/
theorem c8_witness :
    calculate_belief_variance [{ id := 0, beliefs := none }] = some 0 ∧
    calculate_belief_variance
      [{ id := 0, beliefs := some { political_ideology_vector := some [0, 1] } },
       { id := 1, beliefs := some { political_ideology_vector := some [1, 0] } }] =
      some (avgDimVariance [[0, 1], [1, 0]]) := by
  constructor
  · exact c8_belief_variance_policy.2.1 _ (by simp) (by with_unfolding_all rfl)
  · exact c8_belief_variance_policy.2.2 _ (by simp)
      (by with_unfolding_all decide) (by with_unfolding_all decide)
      (by with_unfolding_all decide)

/-! ## C6 — event selection by tick and status -/

/-- C6 (counterexample): with 101 pending `"ubi"` events all targeting tick
0, the simulation at tick 0 selects only the first 100 (`limit=100` in the
`get_events` call), so the 101st event — pending, `target_tick` equal to
the current tick — is NOT selected, refuting "selected exactly when the
current tick equals `T`". -/
theorem c6_counterexample_limit_excludes_101st :
    (let evs : List Event :=
       (List.range 101).map (fun i => { id := i, event_type := "ubi", target_tick := some 0 })
     let sim : SimState := { current_tick := 0, events := evs }
     let e : Event := { id := 100, event_type := "ubi", target_tick := some 0 }
     e ∈ sim.events ∧ e.status = "pending" ∧ e.target_tick = some sim.current_tick ∧
       e ∉ selectedEvents sim) := by
  with_unfolding_all decide

/-- C6 (amended): every selected event is pending with `target_tick` equal
to the current tick; conversely a pending event targeting the current tick
is selected provided at most 100 events match the query (the call's
`limit=100` — beyond that only the first 100 in creation order are
selected); and an event whose status left `pending` (`triggered`,
`processed`, `failed`, ...) is never selected by `process_events_for_tick`
again. -/
theorem c6_amended_selection (sim : SimState) :
    (∀ e ∈ selectedEvents sim,
       e.status = "pending" ∧ e.target_tick = some sim.current_tick) ∧
    (∀ e ∈ sim.events, e.status = "pending" → e.target_tick = some sim.current_tick →
       ((sim.events.filter (fun e' => e'.status = "pending")).filter
          (fun e' => e'.target_tick = some sim.current_tick)).length ≤ 100 →
       e ∈ selectedEvents sim) ∧
    (∀ e, e.status ≠ "pending" → e ∉ selectedEvents sim) := by
  have hsel : selectedEvents sim =
      ((sim.events.filter (fun e' => e'.status = "pending")).filter
        (fun e' => e'.target_tick = some sim.current_tick)).take 100 := by
    unfold selectedEvents get_events
    simp
  refine ⟨?_, ?_, ?_⟩
  · intro e he
    rw [hsel] at he
    have h1 := List.mem_of_mem_take he
    have h2 := (List.mem_filter.mp h1).2
    have h3 := (List.mem_filter.mp (List.mem_filter.mp h1).1).2
    exact ⟨of_decide_eq_true h3, of_decide_eq_true h2⟩
  · intro e he hst htk hlen
    rw [hsel, List.take_of_length_le hlen]
    exact List.mem_filter.mpr
      ⟨List.mem_filter.mpr ⟨he, decide_eq_true hst⟩, decide_eq_true htk⟩
  · intro e hst he
    rw [hsel] at he
    have h1 := List.mem_of_mem_take he
    have h3 := (List.mem_filter.mp (List.mem_filter.mp h1).1).2
    exact hst (of_decide_eq_true h3)

/-- C6 (witness): a one-event simulation — the pending event targeting the
current tick is selected; after its status moves to `triggered` it is no
longer selected. -/
theorem c6_witness :
    (let e : Event := { id := 0, event_type := "ubi", target_tick := some 5 }
     let sim : SimState := { current_tick := 5, events := [e] }
     e ∈ selectedEvents sim) ∧
    (let e' : Event := { id := 0, event_type := "ubi", target_tick := some 5,
                         status := "triggered" }
     let sim' : SimState := { current_tick := 5, events := [e'] }
     e' ∉ selectedEvents sim') := by
  constructor
  · exact (c6_amended_selection _).2.1 _ (by simp) rfl rfl (by decide)
  · exact (c6_amended_selection _).2.2 _ (by decide)

/-! ## C2 — `advance_tick` always reaches tick N+1; only the counter
persist is fatal -/

/-- The UBI handler never touches the tick counter. -/
theorem apply_ubi_event_tick (sim : SimState) (ev : Event) :
    (apply_ubi_event sim ev).current_tick = sim.current_tick := by
  unfold apply_ubi_event
  cases validateUBIParams ev.parameters <;> rfl

/-- The event stage never touches the tick counter. -/
theorem process_events_tick (sim : SimState) :
    (process_events_for_tick sim).current_tick = sim.current_tick := by
  unfold process_events_for_tick
  generalize selectedEvents sim = l
  induction l generalizing sim with
  | nil => rfl
  | cons ev rest ih =>
    rw [List.foldl_cons]
    rw [ih]
    by_cases h : ev.event_type = "ubi"
    · simp only [if_pos h]
      exact apply_ubi_event_tick _ ev
    · simp only [if_neg h]

/-- The metrics stage never touches the tick counter or the agents. -/
theorem metrics_stage_preserves (sim : SimState) :
    (calculate_and_store_metrics sim).current_tick = sim.current_tick ∧
    (calculate_and_store_metrics sim).agents = sim.agents := by
  unfold calculate_and_store_metrics
  split <;> exact ⟨rfl, rfl⟩

/-- The fetched prefix gets updated: the first 10000 agents of the
pipeline's result are exactly the updated first 10000 input agents. -/
theorem run_agent_updates_take (oracle : Agent → OracleOutcome) (tick : Nat)
    (agents : List Agent) :
    (run_agent_updates oracle tick agents).take 10000 =
      (agents.take 10000).map (fun a => update_agent tick (oracle a) a) := by
  unfold run_agent_updates get_agents
  rw [List.drop_zero, List.take_append_eq_append_take]
  have hlen : ((agents.take 10000).map
      (fun a => update_agent tick (oracle a) a)).length ≤ 10000 := by
    rw [List.length_map, List.length_take]
    exact min_le_left _ _
  rw [List.take_of_length_le hlen]
  by_cases h : agents.length ≤ 10000
  · rw [List.drop_eq_nil_of_le h]
    simp
  · have h10 : ((agents.take 10000).map
        (fun a => update_agent tick (oracle a) a)).length = 10000 := by
      rw [List.length_map, List.length_take]
      exact Nat.min_eq_left (by omega)
    rw [h10]
    simp

/-- Agents beyond the `limit=10000` fetch are not updated by the
pipeline: the tail of the result past 10000 is the untouched input
tail. -/
theorem run_agent_updates_drop (oracle : Agent → OracleOutcome) (tick : Nat)
    (agents : List Agent) :
    (run_agent_updates oracle tick agents).drop 10000 = agents.drop 10000 := by
  unfold run_agent_updates get_agents
  rw [List.drop_zero, List.drop_append_eq_append_drop]
  have hlen : ((agents.take 10000).map
      (fun a => update_agent tick (oracle a) a)).length ≤ 10000 := by
    rw [List.length_map, List.length_take]
    exact min_le_left _ _
  rw [List.drop_eq_nil_of_le hlen, List.nil_append]
  by_cases h : agents.length ≤ 10000
  · rw [List.drop_eq_nil_of_le h]
    simp
  · have h10 : ((agents.take 10000).map
        (fun a => update_agent tick (oracle a) a)).length = 10000 := by
      rw [List.length_map, List.length_take]
      exact Nat.min_eq_left (by omega)
    rw [h10]
    simp

/-- With the tick persist succeeding, `advance_tick` returns the state
whose tick is N+1 and whose agents are the pipeline's output on the
post-event agents. -/
theorem advance_tick_ok_shape (oracle : Agent → OracleOutcome) (sim : SimState) :
    ∃ sim', advance_tick oracle false sim = .ok sim' ∧
      sim'.current_tick = sim.current_tick + 1 ∧
      sim'.agents = run_agent_updates oracle sim.current_tick
        (process_events_for_tick sim).agents := by
  refine ⟨_, rfl, ?_, ?_⟩
  · show (calculate_and_store_metrics _).current_tick + 1 = sim.current_tick + 1
    rw [(metrics_stage_preserves _).1]
    show (calculate_and_store_metrics (process_events_for_tick sim)).current_tick + 1 =
      sim.current_tick + 1
    rw [(metrics_stage_preserves _).1, process_events_tick]
  · show (calculate_and_store_metrics _).agents = _
    rw [(metrics_stage_preserves _).2]
    show run_agent_updates oracle
        (calculate_and_store_metrics (process_events_for_tick sim)).current_tick
        (calculate_and_store_metrics (process_events_for_tick sim)).agents = _
    rw [(metrics_stage_preserves _).1, process_events_tick, (metrics_stage_preserves _).2]

/-- A simulation with 10001 agents and no events: one agent more than the
`get_agents` fetch limit of the pipeline. -/
def overflowSim : SimState :=
  { current_tick := 0, agents := List.replicate 10000 { id := 0 } ++ [{ id := 1 }] }

/-- C2 (counterexample): on a simulation with 10001 agents and an oracle
that always fails, `advance_tick` still advances from tick 0 to tick 1,
but the 10001st agent — beyond the `limit=10000` of the agent fetch at
`simulation_service.py:23` — is never updated: its decision log carries no
fallback entry, refuting "a fallback decision is still appended to each
agent's short-term memory". -/
theorem c2_counterexample_agent_beyond_fetch_limit :
    oracleFails OracleOutcome.apiError ∧
    (∃ sim', advance_tick (fun _ => OracleOutcome.apiError) false overflowSim = .ok sim' ∧
      sim'.current_tick = overflowSim.current_tick + 1 ∧
      ∃ a' ∈ sim'.agents,
        lastDecisionEntry a' ≠ some ⟨overflowSim.current_tick, fallbackDecision⟩) := by
  refine ⟨by decide, ?_⟩
  obtain ⟨sim', h1, h2, h3⟩ :=
    advance_tick_ok_shape (fun _ => OracleOutcome.apiError) overflowSim
  have hnoev : process_events_for_tick overflowSim = overflowSim := rfl
  have hdrop : sim'.agents.drop 10000 = [({ id := 1 } : Agent)] := by
    rw [h3, run_agent_updates_drop, hnoev]
    show (List.replicate 10000 ({ id := 0 } : Agent) ++
      [({ id := 1 } : Agent)]).drop 10000 = [({ id := 1 } : Agent)]
    rw [List.drop_left' (List.length_replicate 10000 _)]
  have hmem : ({ id := 1 } : Agent) ∈ sim'.agents.drop 10000 := by
    rw [hdrop]
    exact List.mem_singleton_self _
  refine ⟨sim', h1, h2, ({ id := 1 } : Agent), List.mem_of_mem_drop hmem, ?_⟩
  decide

/-- C2 (amended): with the tick-counter persist succeeding, `advance_tick`
on a simulation at tick N returns a simulation at tick N+1 — whatever the
oracle does and whatever events are eligible (this covers zero eligible
events, since `sim` is arbitrary).  When every oracle call fails, the
fallback decision becomes the newest short-term-memory entry of each of
the first 10000 agents (the `get_agents` fetch is capped at
`limit=10000`); agents beyond the first 10000 are left exactly as the
event stage left them, not updated at all.  With the persist failing,
`advance_tick` surfaces exactly the tick-counter-update error — the only
error the endpoint surfaces. -/
theorem c2_amended_advance_tick (oracle : Agent → OracleOutcome) (sim : SimState) :
    (∃ sim', advance_tick oracle false sim = .ok sim' ∧
       sim'.current_tick = sim.current_tick + 1 ∧
       ((∀ a : Agent, oracleFails (oracle a)) →
          ∀ a' ∈ sim'.agents.take 10000,
            lastDecisionEntry a' = some ⟨sim.current_tick, fallbackDecision⟩) ∧
       sim'.agents.drop 10000 = (process_events_for_tick sim).agents.drop 10000) ∧
    advance_tick oracle true sim = .error "Failed to update simulation tick" := by
  constructor
  · obtain ⟨sim', h1, h2, h3⟩ := advance_tick_ok_shape oracle sim
    refine ⟨sim', h1, h2, ?_, ?_⟩
    · intro hfail a' ha'
      rw [h3, run_agent_updates_take] at ha'
      obtain ⟨a, _, rfl⟩ := List.mem_map.mp ha'
      rw [update_agent_of_oracleFails _ a (hfail a), lastDecisionEntry_applyDecision]
    · rw [h3, run_agent_updates_drop]
  · unfold advance_tick
    rfl

/-- C2 (witness): a one-agent simulation with an always-failing oracle
advances from tick 0 to tick 1 and the agent's newest short-term-memory
entry is the fallback decision; with the persist failing the exact
tick-update error is returned. -/
theorem c2_amended_witness :
    (∃ sim', advance_tick (fun _ => OracleOutcome.apiError) false
        { current_tick := 0, agents := [{ id := 0 }] } = .ok sim' ∧
       sim'.current_tick = 0 + 1 ∧
       ∀ a' ∈ sim'.agents.take 10000,
         lastDecisionEntry a' = some ⟨0, fallbackDecision⟩) ∧
    advance_tick (fun _ => OracleOutcome.apiError) true
        { current_tick := 0, agents := [{ id := 0 }] } =
      .error "Failed to update simulation tick" := by
  obtain ⟨⟨s', h1, h2, h3, _⟩, h4⟩ :=
    c2_amended_advance_tick (fun _ => OracleOutcome.apiError)
      { current_tick := 0, agents := [{ id := 0 }] }
  exact ⟨⟨s', h1, h2, h3 (fun _ => by decide)⟩, h4⟩

/-! ## C7 — the Gini computation

The rank-weighted sum `giniSum` satisfies a head recursion (`giniNum`)
that makes induction over sorted lists possible. -/

/-- Head recursion equal to `giniSum` (proved below): removing the head
`x` of a list of length `n+1` lowers every remaining rank weight by one
and contributes `-n * x`. -/
def giniNum : List ℚ → ℚ
  | [] => 0
  | x :: s => giniNum s + s.sum - (s.length : ℚ) * x

theorem sum_range_getD (s : List ℚ) :
    ∑ i in Finset.range s.length, s.getD i 0 = s.sum := by
  induction s with
  | nil => simp
  | cons x t ih =>
    rw [List.length_cons, Finset.sum_range_succ']
    simp only [List.getD_cons_succ, List.getD_cons_zero]
    rw [ih, List.sum_cons]
    ring

theorem giniSum_eq_giniNum (arr : List ℚ) : giniSum arr = giniNum arr := by
  induction arr with
  | nil => simp [giniSum, giniNum]
  | cons x s ih =>
    unfold giniSum giniNum
    rw [List.length_cons, Finset.sum_range_succ']
    have key : ∀ i ∈ Finset.range s.length,
        (2 * (((i + 1 : ℕ) : ℚ) + 1) - ((s.length + 1 : ℕ) : ℚ) - 1) *
            (x :: s).getD (i + 1) 0 =
          (2 * ((i : ℚ) + 1) - (s.length : ℚ) - 1) * s.getD i 0 + s.getD i 0 := by
      intro i _
      rw [List.getD_cons_succ]
      push_cast
      ring
    rw [Finset.sum_congr rfl key, Finset.sum_add_distrib, sum_range_getD]
    unfold giniSum at ih
    rw [ih]
    simp only [List.getD_cons_zero]
    push_cast
    ring

theorem length_mul_le_sum (c : ℚ) (s : List ℚ) (h : ∀ y ∈ s, c ≤ y) :
    (s.length : ℚ) * c ≤ s.sum := by
  induction s with
  | nil => simp
  | cons y t ih =>
    have hy := h y (List.mem_cons_self y t)
    have ht := ih (fun z hz => h z (List.mem_cons_of_mem y hz))
    rw [List.sum_cons, List.length_cons]
    have expand : (((t.length + 1 : ℕ)) : ℚ) * c = (t.length : ℚ) * c + c := by
      push_cast; ring
    rw [expand]
    linarith

theorem giniNum_nonneg (s : List ℚ) (hs : List.Sorted (· ≤ ·) s) :
    0 ≤ giniNum s := by
  induction s with
  | nil => simp [giniNum]
  | cons x t ih =>
    rw [List.sorted_cons] at hs
    have h1 := length_mul_le_sum x t hs.1
    have h2 := ih hs.2
    unfold giniNum
    linarith

theorem list_sum_nonneg (s : List ℚ) (h : ∀ x ∈ s, 0 ≤ x) : 0 ≤ s.sum := by
  induction s with
  | nil => simp
  | cons x t ih =>
    have := h x (List.mem_cons_self x t)
    have := ih (fun z hz => h z (List.mem_cons_of_mem x hz))
    rw [List.sum_cons]
    linarith

theorem giniNum_le (s : List ℚ) (h : ∀ x ∈ s, 0 ≤ x) :
    giniNum s ≤ ((s.length : ℚ) - 1) * s.sum := by
  induction s with
  | nil => simp [giniNum]
  | cons x t ih =>
    have hx := h x (List.mem_cons_self x t)
    have ht : ∀ z ∈ t, 0 ≤ z := fun z hz => h z (List.mem_cons_of_mem x hz)
    have h1 := ih ht
    have h2 := list_sum_nonneg t ht
    have h3 : (0 : ℚ) ≤ (t.length : ℚ) := Nat.cast_nonneg _
    unfold giniNum
    rw [List.length_cons, List.sum_cons]
    have expand : (((t.length + 1 : ℕ) : ℚ) - 1) * (x + t.sum) =
        (t.length : ℚ) * x + (t.length : ℚ) * t.sum := by
      push_cast; ring
    rw [expand]
    have expand2 : ((t.length : ℚ) - 1) * t.sum = (t.length : ℚ) * t.sum - t.sum := by
      ring
    rw [expand2] at h1
    nlinarith [mul_nonneg h3 hx]

theorem sum_of_const (c : ℚ) (t : List ℚ) (h : ∀ x ∈ t, x = c) :
    t.sum = (t.length : ℚ) * c := by
  induction t with
  | nil => simp
  | cons x s ih =>
    rw [List.sum_cons, List.length_cons,
        ih (fun z hz => h z (List.mem_cons_of_mem x hz)),
        h x (List.mem_cons_self x s)]
    push_cast; ring

theorem giniNum_const (c : ℚ) (s : List ℚ) (h : ∀ x ∈ s, x = c) :
    giniNum s = 0 := by
  induction s with
  | nil => rfl
  | cons x t ih =>
    unfold giniNum
    rw [ih (fun z hz => h z (List.mem_cons_of_mem x hz)),
        sum_of_const c t (fun z hz => h z (List.mem_cons_of_mem x hz)),
        h x (List.mem_cons_self x t)]
    ring

theorem foldl_min_nonneg (x : ℚ) (s : List ℚ) (hx : 0 ≤ x)
    (hs : ∀ y ∈ s, 0 ≤ y) : 0 ≤ s.foldl min x := by
  induction s generalizing x with
  | nil => simpa
  | cons y t ih =>
    rw [List.foldl_cons]
    exact ih (min x y) (le_min hx (hs y (List.mem_cons_self y t)))
      (fun z hz => hs z (List.mem_cons_of_mem y hz))

theorem amin_nonneg (l : List ℚ) (h : ∀ x ∈ l, 0 ≤ x) : 0 ≤ amin l := by
  cases l with
  | nil => simp [amin]
  | cons x s =>
    exact foldl_min_nonneg x s (h x (List.mem_cons_self x s))
      (fun z hz => h z (List.mem_cons_of_mem x hz))

theorem GINI_EPS_pos : (0 : ℚ) < GINI_EPS := by
  unfold GINI_EPS; norm_num

/-- C7: `calculate_gini` is undefined (`none`) on the empty list (and only
raises never — the model is total with an `Option` result); on every
non-empty list of non-negative incomes it returns the discrete Gini value
`giniSum sorted / (n * sum sorted)` — the sorted, epsilon-shifted formula
of the source — which is a finite rational with `0 ≤ g < 1`; and on a
constant list (all incomes equal) the result is exactly `0`, a fortiori
within any epsilon of `0`. -/
theorem c7_gini_contract :
    (calculate_gini [] = none) ∧
    (∀ l : List ℚ, l ≠ [] → (∀ x ∈ l, 0 ≤ x) →
       ∃ g, calculate_gini l = some g ∧ 0 ≤ g ∧ g < 1) ∧
    (∀ (n : Nat) (x : ℚ), 0 < n → 0 ≤ x →
       calculate_gini (List.replicate n x) = some 0) := by
  refine ⟨rfl, ?_, ?_⟩
  · intro l hne h0
    have hmin : ¬ amin l < 0 := not_lt.mpr (amin_nonneg l h0)
    simp only [calculate_gini, if_neg hne, if_neg hmin]
    set s := List.insertionSort (· ≤ ·) (l.map (fun x => x + GINI_EPS)) with hs
    have hperm : s.Perm (l.map (fun x => x + GINI_EPS)) :=
      List.perm_insertionSort _ _
    have hsorted : List.Sorted (· ≤ ·) s := List.sorted_insertionSort _ _
    have hpos : ∀ z ∈ s, 0 < z := by
      intro z hz
      have hz2 := hperm.mem_iff.mp hz
      obtain ⟨x, hx, rfl⟩ := List.mem_map.mp hz2
      have := h0 x hx
      have := GINI_EPS_pos
      linarith
    have hlen : s.length = l.length := by
      rw [hperm.length_eq, List.length_map]
    have hlenpos : 0 < l.length := List.length_pos.mpr hne
    have hsne : s ≠ [] := by
      intro habs
      rw [habs] at hlen
      simp at hlen
      omega
    have hSpos : 0 < s.sum := List.sum_pos s hpos hsne
    have hnpos : (0 : ℚ) < (s.length : ℚ) := by
      rw [hlen]
      exact_mod_cast hlenpos
    have hden : (0 : ℚ) < (s.length : ℚ) * s.sum := mul_pos hnpos hSpos
    refine ⟨_, rfl, ?_, ?_⟩
    · rw [giniSum_eq_giniNum]
      exact div_nonneg (giniNum_nonneg s hsorted) hden.le
    · rw [giniSum_eq_giniNum, div_lt_one hden]
      have hle := giniNum_le s (fun z hz => (hpos z hz).le)
      have expand : ((s.length : ℚ) - 1) * s.sum = (s.length : ℚ) * s.sum - s.sum := by
        ring
      rw [expand] at hle
      linarith
  · intro n x hn hx
    have hne : List.replicate n x ≠ [] := by
      intro habs
      have := List.length_replicate n x
      rw [habs] at this
      simp at this
      omega
    have h0 : ∀ y ∈ List.replicate n x, 0 ≤ y := by
      intro y hy
      rw [List.eq_of_mem_replicate hy]
      exact hx
    have hmin : ¬ amin (List.replicate n x) < 0 :=
      not_lt.mpr (amin_nonneg _ h0)
    simp only [calculate_gini, if_neg hne, if_neg hmin, List.map_replicate]
    have hconst : ∀ z ∈ List.insertionSort (· ≤ ·)
        (List.replicate n (x + GINI_EPS)), z = x + GINI_EPS := by
      intro z hz
      exact List.eq_of_mem_replicate
        ((List.perm_insertionSort _ _).mem_iff.mp hz)
    rw [giniSum_eq_giniNum, giniNum_const (x + GINI_EPS) _ hconst, zero_div]

/-- C7 (witness): the empty list, the concrete non-empty list `[1, 2]`, and
the constant list `[5, 5, 5]`. -/
theorem c7_witness :
    calculate_gini [] = none ∧
    (∃ g, calculate_gini [1, 2] = some g ∧ 0 ≤ g ∧ g < 1) ∧
    calculate_gini (List.replicate 3 (5 : ℚ)) = some 0 := by
  refine ⟨c7_gini_contract.1, ?_, ?_⟩
  · exact c7_gini_contract.2.1 [1, 2] (by simp) (by norm_num)
  · exact c7_gini_contract.2.2 3 5 (by norm_num) (by norm_num)

end EntropyOS
